import Mathlib

/-!
Verification of the bookmark/tag persistence and query engine of the
bookmark-manager server (`packages/server/src`: `database.ts`,
`routes/bookmarkRoutes.ts`, `routes/tagRoutes.ts`).

The SQLite store is embedded shallowly: each table is a list of rows, an
AUTOINCREMENT counter accompanies each table that has one, and every route
handler becomes a pure function from a request and a store to a result
(`Except`, mirroring throw/next(err)) together with the store after the
call.  better-sqlite3 executes statements sequentially and the handlers
open no transaction, so a handler that throws in the middle of a statement
sequence leaves the store in the intermediate state; the embedding makes
that state explicit.  SQLite specifics that the routes rely on are
modelled directly: `PRAGMA foreign_keys = ON` (an insert into
`bookmark_tags` fails when either parent row is missing; `INSERT OR
IGNORE` does not suppress foreign-key failures, only uniqueness ones),
`ON DELETE CASCADE`, `LIKE` with `%`/`_` wildcards and ASCII case folding,
and `ORDER BY created_at DESC`.
-/

deriving instance DecidableEq for Except

namespace BookmarkServer

/-- A row of the `bookmarks` table (`database.ts`, snake_case storage naming). -/
structure BookmarkRow where
  id : Int
  title : String
  url : String
  description : String
  favicon : String
  created_at : String
  updated_at : String
deriving DecidableEq

/-- A row of the `tags` table. -/
structure TagRow where
  id : Int
  name : String
  color : String
deriving DecidableEq

/-- A row of the `bookmark_tags` junction table. -/
structure BookmarkTagRow where
  bookmark_id : Int
  tag_id : Int
deriving DecidableEq

/-- The SQLite store: the three tables plus the AUTOINCREMENT counters that
assign `lastInsertRowid` for `bookmarks` and `tags`. -/
structure DB where
  bookmarks : List BookmarkRow
  tags : List TagRow
  bookmark_tags : List BookmarkTagRow
  nextBookmarkId : Int
  nextTagId : Int
deriving DecidableEq

/-- The store right after `initDatabase` created the (empty) tables. -/
def emptyDB : DB :=
  { bookmarks := [], tags := [], bookmark_tags := [], nextBookmarkId := 1, nextTagId := 1 }

/-- An error escaping a route handler: either an `AppError(statusCode, message)`
thrown by the handler itself, or a better-sqlite3 foreign-key-constraint
error propagated unchanged through `next(err)`. -/
inductive ApiErr where
  | app (statusCode : Nat)
  | fkViolation
deriving DecidableEq

/-- The value of `Number(req.params.id)` for a route `:id` parameter,
abstracted to what the handlers observe: `nan` (the string was not
numeric, `isNaN` is true), an integer, or a numeric non-integer value
(such as `1.5` or `Infinity`), which passes the `isNaN` check but can
never equal an `INTEGER PRIMARY KEY` column in a `WHERE id = ?` lookup. -/
inductive IdParam where
  | nan
  | intVal (n : Int)
  | nonIntVal
deriving DecidableEq

/-- The `WHERE id = ?` comparison of an id column against the route parameter. -/
def idMatches (p : IdParam) (n : Int) : Bool :=
  match p with
  | .intVal m => m == n
  | _ => false

/-- JavaScript falsiness of a `string | undefined` value, as used by the
`if (!title || !url)` and `if (!name)` validations (`undefined`, `null`
and the empty string are falsy). -/
def falsyStr : Option String → Bool
  | none => true
  | some s => s.isEmpty

/-- SQLite `LIKE` case folding: ASCII upper-case letters compare equal to
their lower-case forms; all other characters compare byte-wise. -/
def asciiLower (c : Char) : Char :=
  if 'A' ≤ c ∧ c ≤ 'Z' then Char.ofNat (c.toNat + 32) else c

/-- SQLite `LIKE` pattern matching (no ESCAPE clause): `%` matches any
character sequence, `_` any single character, and any other pattern
character matches a text character up to ASCII case folding. -/
def likeM : List Char → List Char → Bool
  | [], s => s.isEmpty
  | p :: ps, s =>
    if p = '%' then s.tails.any (fun u => likeM ps u)
    else
      match s with
      | [] => false
      | d :: s' => (if p = '_' then true else asciiLower p == asciiLower d) && likeM ps s'

/-- The pattern `%${search}%` built by the search branch of `GET /`. -/
def likePattern (s : String) : List Char :=
  '%' :: s.data ++ ['%']

/-- The condition `title LIKE ? OR url LIKE ? OR description LIKE ?` with `%${search}%`
bound to all three placeholders. -/
def matchesSearch (s : String) (b : BookmarkRow) : Bool :=
  likeM (likePattern s) b.title.data || likeM (likePattern s) b.url.data ||
    likeM (likePattern s) b.description.data

/-- The `tags` field of `BookmarkWithTags` computed by `attachTags`:
`SELECT t.* FROM tags t JOIN bookmark_tags bt ON t.id = bt.tag_id
WHERE bt.bookmark_id = ?`. -/
def bookmarkTagsOf (st : DB) (bid : Int) : List TagRow :=
  (st.bookmark_tags.filter (fun a => a.bookmark_id == bid)).filterMap
    (fun a => st.tags.find? (fun t => t.id == a.tag_id))

/-- The API result shape (camelCase), `BookmarkWithTags` from `@bookmark/shared`. -/
structure BookmarkWithTags where
  id : Int
  title : String
  url : String
  description : String
  favicon : String
  createdAt : String
  updatedAt : String
  tags : List TagRow
deriving DecidableEq

/-- The helper `attachTags` of `bookmarkRoutes.ts`: joins the tags of a raw row and
renames the storage fields to the public camelCase names. -/
def attachTags (st : DB) (row : BookmarkRow) : BookmarkWithTags :=
  { id := row.id, title := row.title, url := row.url,
    description := row.description, favicon := row.favicon,
    createdAt := row.created_at, updatedAt := row.updated_at,
    tags := bookmarkTagsOf st row.id }

/-- The `ORDER BY created_at DESC` comparison between two bookmark rows. -/
def createdDesc (a b : BookmarkRow) : Prop :=
  b.created_at ≤ a.created_at

instance : DecidableRel createdDesc := fun a b =>
  inferInstanceAs (Decidable (b.created_at ≤ a.created_at))

instance : IsTotal BookmarkRow createdDesc :=
  ⟨fun a b => (le_total b.created_at a.created_at).imp id id⟩

instance : IsTrans BookmarkRow createdDesc :=
  ⟨fun _ _ _ h1 h2 => le_trans h2 h1⟩

/-- The query parameters of `GET /api/bookmarks` at the engine contract
level: an optional search string and an optional (integer) tag id. -/
structure ListFilter where
  search : Option String
  tagId : Option Int
deriving DecidableEq

/-- Handler of `GET /api/bookmarks` (`router.get("/")`): the `tagId` branch joins
through `bookmark_tags` (`SELECT DISTINCT`), the `search` branch uses the
three-field `LIKE`, the fall-through returns the whole table; every branch
orders by `created_at DESC` and maps the rows through `attachTags`. -/
def listBookmarks (st : DB) (f : ListFilter) : List BookmarkWithTags :=
  let rows :=
    match f.tagId with
    | some t =>
        List.insertionSort createdDesc (st.bookmarks.filter (fun b =>
          st.bookmark_tags.any (fun a => a.bookmark_id == b.id && a.tag_id == t)))
    | none =>
        match f.search with
        | some s =>
            if s.isEmpty then List.insertionSort createdDesc st.bookmarks
            else List.insertionSort createdDesc (st.bookmarks.filter (fun b => matchesSearch s b))
        | none => List.insertionSort createdDesc st.bookmarks
  rows.map (attachTags st)

/-- Handler of `GET /api/bookmarks/:id` (`router.get("/:id")`). -/
def getBookmark (st : DB) (p : IdParam) : Except ApiErr BookmarkWithTags :=
  if p = .nan then .error (.app 400)
  else
    match st.bookmarks.find? (fun b => idMatches p b.id) with
    | none => .error (.app 404)
    | some row => .ok (attachTags st row)

/-- One `INSERT OR IGNORE INTO bookmark_tags (bookmark_id, tag_id)` with
`foreign_keys = ON`: a missing parent row raises a foreign-key error
(`OR IGNORE` only suppresses the uniqueness failure on the composite
primary key, turning a duplicate pair into a no-op). -/
def insertBookmarkTag (st : DB) (bid tid : Int) : Except ApiErr DB :=
  if st.bookmarks.any (fun b => b.id == bid) && st.tags.any (fun t => t.id == tid) then
    if st.bookmark_tags.any (fun a => a.bookmark_id == bid && a.tag_id == tid) then
      .ok st
    else
      .ok { st with bookmark_tags := st.bookmark_tags ++ [⟨bid, tid⟩] }
  else
    .error .fkViolation

/-- The `for (const tagId of tagIds) insertTag.run(...)` loop: statements
run one after another with no surrounding transaction, so a failing insert
aborts the loop and leaves the effects of the earlier iterations in place. -/
def insertBookmarkTags (st : DB) (bid : Int) (ts : List Int) : Except ApiErr Unit × DB :=
  match ts with
  | [] => (.ok (), st)
  | tid :: rest =>
    match insertBookmarkTag st bid tid with
    | .ok st' => insertBookmarkTags st' bid rest
    | .error e => (.error e, st)

/-- The request body of `POST /api/bookmarks` (`CreateBookmarkRequest`);
`none` stands for an absent (or `null`) field. -/
structure CreateBookmarkReq where
  title : Option String
  url : Option String
  description : Option String
  favicon : Option String
  tagIds : Option (List Int)
deriving DecidableEq

/-- The request body of `PUT /api/bookmarks/:id` (`UpdateBookmarkRequest`). -/
structure UpdateBookmarkReq where
  title : Option String
  url : Option String
  description : Option String
  favicon : Option String
  tagIds : Option (List Int)
deriving DecidableEq

/-- The row inserted by `INSERT INTO bookmarks (title, url, description,
favicon) VALUES (?, ?, ?, ?)` run with `(title, url, description ?? "",
favicon ?? "")`: `created_at`/`updated_at` take the `datetime('now')`
default (`now`) and the id is the `lastInsertRowid`. -/
def newBookmarkRow (st : DB) (req : CreateBookmarkReq) (now : String) : BookmarkRow :=
  { id := st.nextBookmarkId, title := req.title.getD "", url := req.url.getD "",
    description := req.description.getD "", favicon := req.favicon.getD "",
    created_at := now, updated_at := now }

/-- The store right after the bookmark-row insert of `POST /api/bookmarks`. -/
def createInsertedDB (st : DB) (req : CreateBookmarkReq) (now : String) : DB :=
  { st with
    bookmarks := st.bookmarks ++ [newBookmarkRow st req now],
    nextBookmarkId := st.nextBookmarkId + 1 }

/-- The step `if (tagIds && tagIds.length > 0) { ...insert loop... }` of
`POST /api/bookmarks`. -/
def createAssocStep (st1 : DB) (newId : Int) (tagIds : Option (List Int)) :
    Except ApiErr Unit × DB :=
  match tagIds with
  | some ts => if 0 < ts.length then insertBookmarkTags st1 newId ts else (.ok (), st1)
  | none => (.ok (), st1)

/-- Handler of `POST /api/bookmarks` (`router.post("/")`): validate `title`/`url`
falsiness, insert the row, then — if `tagIds` is provided and non-empty —
run the association-insert loop, and finally re-fetch the row and return
it through `attachTags`.  No transaction wraps the sequence. -/
def createBookmark (st : DB) (req : CreateBookmarkReq) (now : String) :
    Except ApiErr BookmarkWithTags × DB :=
  if falsyStr req.title || falsyStr req.url then (.error (.app 400), st)
  else
    match createAssocStep (createInsertedDB st req now) st.nextBookmarkId req.tagIds with
    | (.ok _, st2) =>
        (.ok (attachTags st2 ((st2.bookmarks.find? (fun b => b.id == st.nextBookmarkId)).getD
          (newBookmarkRow st req now))), st2)
    | (.error e, st2) => (.error e, st2)

/-- Handler of `PUT /api/bookmarks/:id` (`router.put("/:id")`): `isNaN` check, 404 on a
missing row, `??`-merge of the patch over the stored values (so a present
empty string does overwrite), one `UPDATE` that always refreshes
`updated_at`, then — only when `tagIds` is present — delete all the
bookmark's association rows and re-insert one per id; finally re-fetch.
No transaction wraps the sequence. -/
def updatedRow (patch : UpdateBookmarkReq) (existing : BookmarkRow) (now : String)
    (b : BookmarkRow) : BookmarkRow :=
  { b with title := patch.title.getD existing.title, url := patch.url.getD existing.url,
           description := patch.description.getD existing.description,
           favicon := patch.favicon.getD existing.favicon, updated_at := now }

/-- The store after the `UPDATE bookmarks SET ... WHERE id = ?` statement. -/
def updateRowDB (st : DB) (p : IdParam) (patch : UpdateBookmarkReq)
    (existing : BookmarkRow) (now : String) : DB :=
  { st with bookmarks := st.bookmarks.map (fun b =>
      if idMatches p b.id then updatedRow patch existing now b else b) }

/-- The statement `DELETE FROM bookmark_tags WHERE bookmark_id = ?`. -/
def deleteAssocsOf (st : DB) (p : IdParam) : DB :=
  { st with bookmark_tags :=
      st.bookmark_tags.filter (fun a => !(idMatches p a.bookmark_id)) }

/-- The step `if (body.tagIds !== undefined) { delete old rows; if non-empty, insert }`
of `PUT /api/bookmarks/:id`. -/
def updateAssocStep (st1 : DB) (p : IdParam) (bid : Int) (tagIds : Option (List Int)) :
    Except ApiErr Unit × DB :=
  match tagIds with
  | none => (.ok (), st1)
  | some ts =>
      if 0 < ts.length then insertBookmarkTags (deleteAssocsOf st1 p) bid ts
      else (.ok (), deleteAssocsOf st1 p)

def updateBookmark (st : DB) (p : IdParam) (patch : UpdateBookmarkReq) (now : String) :
    Except ApiErr BookmarkWithTags × DB :=
  if p = .nan then (.error (.app 400), st)
  else
    match st.bookmarks.find? (fun b => idMatches p b.id) with
    | none => (.error (.app 404), st)
    | some existing =>
      match updateAssocStep (updateRowDB st p patch existing now) p existing.id patch.tagIds with
      | (.ok _, st2) =>
          (.ok (attachTags st2
              ((st2.bookmarks.find? (fun b => idMatches p b.id)).getD existing)), st2)
      | (.error e, st2) => (.error e, st2)

/-- Handler of `DELETE /api/bookmarks/:id` (`router.delete("/:id")`): `isNaN` check,
404 on a missing row, then `DELETE FROM bookmarks WHERE id = ?`; `ON
DELETE CASCADE` removes the association rows referencing the deleted
bookmark in the same statement. -/
def deleteBookmark (st : DB) (p : IdParam) : Except ApiErr Int × DB :=
  if p = .nan then (.error (.app 400), st)
  else
    match st.bookmarks.find? (fun b => idMatches p b.id) with
    | none => (.error (.app 404), st)
    | some existing =>
      let st' : DB :=
        { st with
          bookmarks := st.bookmarks.filter (fun b => !(idMatches p b.id)),
          bookmark_tags := st.bookmark_tags.filter (fun a => !(idMatches p a.bookmark_id)) }
      (.ok existing.id, st')

/-- Handler of `POST /api/tags` (`tagRoutes.ts`, `router.post("/")`): `!name`
validation, then the `INSERT INTO tags` inside an inner try/catch whose
catch-all turns ANY error thrown by the insert into `AppError(409)`.  The
environment flag `ioFail` says whether the underlying storage fails on
this particular insert (a nondeterministic environmental failure the
handler cannot predict); a duplicate `name` makes the insert throw a
unique-constraint error, and both kinds of throw reach the same catch. -/
def createTag (st : DB) (name color : Option String) (ioFail : Bool) :
    Except ApiErr TagRow × DB :=
  if falsyStr name then (.error (.app 400), st)
  else
    if ioFail then (.error (.app 409), st)
    else if st.tags.any (fun t => t.name == name.getD "") then (.error (.app 409), st)
    else
      let tag : TagRow :=
        { id := st.nextTagId, name := name.getD "", color := color.getD "#6366f1" }
      (.ok tag, { st with tags := st.tags ++ [tag], nextTagId := st.nextTagId + 1 })

/-- Handler of `DELETE /api/tags/:id` (`router.delete("/:id")`): `isNaN` check, 404 on
a missing tag, then `DELETE FROM tags WHERE id = ?` with the cascade
removing the association rows referencing the deleted tag. -/
def deleteTag (st : DB) (p : IdParam) : Except ApiErr Int × DB :=
  if p = .nan then (.error (.app 400), st)
  else
    match st.tags.find? (fun t => idMatches p t.id) with
    | none => (.error (.app 404), st)
    | some existing =>
      let st' : DB :=
        { st with
          tags := st.tags.filter (fun t => !(idMatches p t.id)),
          bookmark_tags := st.bookmark_tags.filter (fun a => !(idMatches p a.tag_id)) }
      (.ok existing.id, st')

/-- One state-mutating request against the engine. -/
inductive Op where
  | opCreate (req : CreateBookmarkReq) (now : String)
  | opUpdate (p : IdParam) (patch : UpdateBookmarkReq) (now : String)
  | opDeleteBookmark (p : IdParam)
  | opCreateTag (name color : Option String) (ioFail : Bool)
  | opDeleteTag (p : IdParam)

/-- The store after a request, whether the request succeeded or threw. -/
def applyOp (st : DB) : Op → DB
  | .opCreate req now => (createBookmark st req now).2
  | .opUpdate p patch now => (updateBookmark st p patch now).2
  | .opDeleteBookmark p => (deleteBookmark st p).2
  | .opCreateTag name color ioFail => (createTag st name color ioFail).2
  | .opDeleteTag p => (deleteTag st p).2

/-- The stores reachable from a fresh database by any request sequence. -/
inductive Reachable : DB → Prop
  | init : Reachable emptyDB
  | step {st : DB} (op : Op) : Reachable st → Reachable (applyOp st op)

/-- Referential integrity of the junction table: every association row
references an existing bookmark and an existing tag. -/
def RefIntegrity (st : DB) : Prop :=
  ∀ a ∈ st.bookmark_tags,
    (∃ b ∈ st.bookmarks, b.id = a.bookmark_id) ∧ (∃ t ∈ st.tags, t.id = a.tag_id)

/-- Case-insensitive (ASCII) substring containment, the specification-side
reading of "contains the search string as a case-insensitive substring". -/
def ContainsCI (p t : List Char) : Prop :=
  ∃ pre post, t.map asciiLower = pre ++ p.map asciiLower ++ post

/-- Case-insensitive comparison of a pattern against the start of a text. -/
def startsCI : List Char → List Char → Bool
  | [], _ => true
  | _ :: _, [] => false
  | c :: p, d :: t => (asciiLower c == asciiLower d) && startsCI p t

/-- Executable case-insensitive substring test. -/
def subCI (p t : List Char) : Bool :=
  t.tails.any (fun u => startsCI p u)

/-! ### Helper lemmas about the association-insert loop -/

theorem insertBookmarkTag_ok_inv {st st' : DB} {bid tid : Int}
    (h : insertBookmarkTag st bid tid = .ok st') :
    st'.bookmarks = st.bookmarks ∧ st'.tags = st.tags ∧
      st'.nextBookmarkId = st.nextBookmarkId ∧ st'.nextTagId = st.nextTagId ∧
      (st'.bookmark_tags = st.bookmark_tags ∨
        (st'.bookmark_tags = st.bookmark_tags ++ [⟨bid, tid⟩] ∧
          (∃ b ∈ st.bookmarks, b.id = bid) ∧ (∃ t ∈ st.tags, t.id = tid))) := by
  unfold insertBookmarkTag at h
  by_cases hfk : (st.bookmarks.any (fun b => b.id == bid) &&
      st.tags.any (fun t => t.id == tid)) = true
  · rw [if_pos hfk] at h
    have hfk' := hfk
    simp only [Bool.and_eq_true, List.any_eq_true, beq_iff_eq] at hfk'
    by_cases hdup : (st.bookmark_tags.any
        (fun a => a.bookmark_id == bid && a.tag_id == tid)) = true
    · rw [if_pos hdup] at h
      cases h
      exact ⟨rfl, rfl, rfl, rfl, Or.inl rfl⟩
    · rw [if_neg hdup] at h
      cases h
      exact ⟨rfl, rfl, rfl, rfl, Or.inr ⟨rfl, hfk'.1, hfk'.2⟩⟩
  · rw [if_neg hfk] at h
    cases h

theorem insertBookmarkTag_ok_of {st : DB} {bid tid : Int}
    (hb : ∃ b ∈ st.bookmarks, b.id = bid) (ht : ∃ t ∈ st.tags, t.id = tid) :
    ∃ st', insertBookmarkTag st bid tid = .ok st' := by
  unfold insertBookmarkTag
  have hfk : (st.bookmarks.any (fun b => b.id == bid) &&
      st.tags.any (fun t => t.id == tid)) = true := by
    simp only [Bool.and_eq_true, List.any_eq_true, beq_iff_eq]
    exact ⟨hb, ht⟩
  rw [if_pos hfk]
  by_cases hdup : (st.bookmark_tags.any
      (fun a => a.bookmark_id == bid && a.tag_id == tid)) = true
  · rw [if_pos hdup]; exact ⟨st, rfl⟩
  · rw [if_neg hdup]; exact ⟨_, rfl⟩

theorem ibt_frame : ∀ (ts : List Int) (st : DB) (bid : Int),
    (insertBookmarkTags st bid ts).2.bookmarks = st.bookmarks ∧
      (insertBookmarkTags st bid ts).2.tags = st.tags ∧
      (insertBookmarkTags st bid ts).2.nextBookmarkId = st.nextBookmarkId ∧
      (insertBookmarkTags st bid ts).2.nextTagId = st.nextTagId
  | [], st, bid => ⟨rfl, rfl, rfl, rfl⟩
  | tid :: rest, st, bid => by
    simp only [insertBookmarkTags]
    cases h : insertBookmarkTag st bid tid with
    | ok st' =>
      obtain ⟨h1, h2, h3, h4, _⟩ := insertBookmarkTag_ok_inv h
      have ih := ibt_frame rest st' bid
      exact ⟨ih.1.trans h1, ih.2.1.trans h2, ih.2.2.1.trans h3, ih.2.2.2.trans h4⟩
    | error e => exact ⟨rfl, rfl, rfl, rfl⟩

theorem ibt_assocs_super : ∀ (ts : List Int) (st : DB) (bid : Int),
    ∀ a ∈ st.bookmark_tags, a ∈ (insertBookmarkTags st bid ts).2.bookmark_tags
  | [], _, _ => fun _ ha => ha
  | tid :: rest, st, bid => by
    intro a ha
    simp only [insertBookmarkTags]
    cases h : insertBookmarkTag st bid tid with
    | ok st' =>
      obtain ⟨_, _, _, _, h5⟩ := insertBookmarkTag_ok_inv h
      refine ibt_assocs_super rest st' bid a ?_
      rcases h5 with h5 | ⟨h5, _⟩
      · rw [h5]; exact ha
      · rw [h5]; exact List.mem_append_left _ ha
    | error e => exact ha

theorem ibt_assocs_sub : ∀ (ts : List Int) (st : DB) (bid : Int),
    ∀ a ∈ (insertBookmarkTags st bid ts).2.bookmark_tags,
      a ∈ st.bookmark_tags ∨
        (a.bookmark_id = bid ∧ a.tag_id ∈ ts ∧
          (∃ b ∈ st.bookmarks, b.id = bid) ∧ (∃ t ∈ st.tags, t.id = a.tag_id))
  | [], _, _ => fun _ ha => Or.inl ha
  | tid :: rest, st, bid => by
    intro a ha
    simp only [insertBookmarkTags] at ha
    cases h : insertBookmarkTag st bid tid with
    | ok st' =>
      rw [h] at ha
      obtain ⟨hb, htg, _, _, h5⟩ := insertBookmarkTag_ok_inv h
      rcases ibt_assocs_sub rest st' bid a ha with hold | ⟨ha1, ha2, ha3, ha4⟩
      · rcases h5 with h5 | ⟨h5, hpb, hpt⟩
        · rw [h5] at hold; exact Or.inl hold
        · rw [h5] at hold
          rcases List.mem_append.mp hold with hold | hnew
          · exact Or.inl hold
          · have : a = (⟨bid, tid⟩ : BookmarkTagRow) := by
              simpa using hnew
            subst this
            exact Or.inr ⟨rfl, List.mem_cons_self _ _, hpb, hpt⟩
      · rw [hb] at ha3
        rw [htg] at ha4
        exact Or.inr ⟨ha1, List.mem_cons_of_mem _ ha2, ha3, ha4⟩
    | error e =>
      rw [h] at ha
      exact Or.inl ha

theorem ibt_ok : ∀ (ts : List Int) (st : DB) (bid : Int),
    (∃ b ∈ st.bookmarks, b.id = bid) → (∀ t ∈ ts, ∃ tg ∈ st.tags, tg.id = t) →
      (insertBookmarkTags st bid ts).1 = .ok ()
  | [], _, _ => fun _ _ => rfl
  | tid :: rest, st, bid => by
    intro hb ht
    obtain ⟨st', hok⟩ := insertBookmarkTag_ok_of hb (ht tid (List.mem_cons_self _ _))
    simp only [insertBookmarkTags, hok]
    obtain ⟨h1, h2, _, _, _⟩ := insertBookmarkTag_ok_inv hok
    refine ibt_ok rest st' bid ?_ ?_
    · rw [h1]; exact hb
    · rw [h2]; exact fun t htmem => ht t (List.mem_cons_of_mem _ htmem)

theorem ibt_mem_new : ∀ (ts : List Int) (st : DB) (bid t : Int),
    (∃ b ∈ st.bookmarks, b.id = bid) → (∀ u ∈ ts, ∃ tg ∈ st.tags, tg.id = u) →
      t ∈ ts → (⟨bid, t⟩ : BookmarkTagRow) ∈ (insertBookmarkTags st bid ts).2.bookmark_tags
  | [], _, _, _ => fun _ _ hmem => absurd hmem (List.not_mem_nil _)
  | tid :: rest, st, bid, t => by
    intro hb ht hmem
    obtain ⟨st', hok⟩ := insertBookmarkTag_ok_of hb (ht tid (List.mem_cons_self _ _))
    simp only [insertBookmarkTags, hok]
    obtain ⟨h1, h2, _, _, h5⟩ := insertBookmarkTag_ok_inv hok
    rcases List.mem_cons.mp hmem with rfl | hrest
    · -- the head id: the row is in `st'` (inserted, or already present), and
      -- the remaining iterations never remove rows
      have hmem' : (⟨bid, t⟩ : BookmarkTagRow) ∈ st'.bookmark_tags := by
        unfold insertBookmarkTag at hok
        by_cases hfk : (st.bookmarks.any (fun b => b.id == bid) &&
            st.tags.any (fun tg => tg.id == t)) = true
        · rw [if_pos hfk] at hok
          by_cases hdup : (st.bookmark_tags.any
              (fun a => a.bookmark_id == bid && a.tag_id == t)) = true
          · rw [if_pos hdup] at hok
            cases hok
            simp only [List.any_eq_true, Bool.and_eq_true, beq_iff_eq] at hdup
            obtain ⟨a, hamem, ha1, ha2⟩ := hdup
            have : a = (⟨bid, t⟩ : BookmarkTagRow) := by
              cases a; simp_all
            rw [← this]; exact hamem
          · rw [if_neg hdup] at hok
            cases hok
            exact List.mem_append_right _ (List.mem_singleton.mpr rfl)
        · rw [if_neg hfk] at hok
          cases hok
      exact ibt_assocs_super rest st' bid _ hmem'
    · refine ibt_mem_new rest st' bid t ?_ ?_ hrest
      · rw [h1]; exact hb
      · rw [h2]; exact fun u hu => ht u (List.mem_cons_of_mem _ hu)

/-! ### Referential-integrity preservation -/

theorem updatedRow_id (patch : UpdateBookmarkReq) (ex : BookmarkRow) (now : String)
    (b : BookmarkRow) : (updatedRow patch ex now b).id = b.id :=
  rfl

theorem ibt_pres (ts : List Int) (st : DB) (bid : Int) (h : RefIntegrity st) :
    RefIntegrity (insertBookmarkTags st bid ts).2 := by
  intro a ha
  obtain ⟨hb, ht, _, _⟩ := ibt_frame ts st bid
  rcases ibt_assocs_sub ts st bid a ha with hold | ⟨heq, _, hpb, hpt⟩
  · obtain ⟨⟨b, hb1, hb2⟩, ⟨t, ht1, ht2⟩⟩ := h a hold
    exact ⟨⟨b, by rw [hb]; exact hb1, hb2⟩, ⟨t, by rw [ht]; exact ht1, ht2⟩⟩
  · obtain ⟨b, hb1, hb2⟩ := hpb
    obtain ⟨t, ht1, ht2⟩ := hpt
    exact ⟨⟨b, by rw [hb]; exact hb1, hb2.trans heq.symm⟩,
      ⟨t, by rw [ht]; exact ht1, ht2⟩⟩

theorem createAssocStep_frame (st1 : DB) (newId : Int) (tagIds : Option (List Int)) :
    (createAssocStep st1 newId tagIds).2.bookmarks = st1.bookmarks ∧
      (createAssocStep st1 newId tagIds).2.tags = st1.tags := by
  cases tagIds with
  | none => exact ⟨rfl, rfl⟩
  | some ts =>
    by_cases hl : 0 < ts.length
    · simp only [createAssocStep, if_pos hl]
      exact ⟨(ibt_frame ts st1 newId).1, (ibt_frame ts st1 newId).2.1⟩
    · simp [createAssocStep, if_neg hl]

theorem createAssocStep_pres (st1 : DB) (newId : Int) (tagIds : Option (List Int))
    (h : RefIntegrity st1) : RefIntegrity (createAssocStep st1 newId tagIds).2 := by
  cases tagIds with
  | none => exact h
  | some ts =>
    by_cases hl : 0 < ts.length
    · simp only [createAssocStep, if_pos hl]
      exact ibt_pres ts st1 newId h
    · simp only [createAssocStep, if_neg hl]
      exact h

theorem deleteAssocsOf_pres (st : DB) (p : IdParam) (h : RefIntegrity st) :
    RefIntegrity (deleteAssocsOf st p) := by
  intro a ha
  exact h a (List.mem_of_mem_filter ha)

theorem updateAssocStep_frame (st1 : DB) (p : IdParam) (bid : Int)
    (tagIds : Option (List Int)) :
    (updateAssocStep st1 p bid tagIds).2.bookmarks = st1.bookmarks ∧
      (updateAssocStep st1 p bid tagIds).2.tags = st1.tags := by
  cases tagIds with
  | none => exact ⟨rfl, rfl⟩
  | some ts =>
    by_cases hl : 0 < ts.length
    · simp only [updateAssocStep, if_pos hl]
      exact ⟨(ibt_frame ts _ bid).1, (ibt_frame ts _ bid).2.1⟩
    · simp [updateAssocStep, if_neg hl, deleteAssocsOf]

theorem updateAssocStep_pres (st1 : DB) (p : IdParam) (bid : Int)
    (tagIds : Option (List Int)) (h : RefIntegrity st1) :
    RefIntegrity (updateAssocStep st1 p bid tagIds).2 := by
  cases tagIds with
  | none => exact h
  | some ts =>
    by_cases hl : 0 < ts.length
    · simp only [updateAssocStep, if_pos hl]
      exact ibt_pres ts _ bid (deleteAssocsOf_pres st1 p h)
    · simp only [updateAssocStep, if_neg hl]
      exact deleteAssocsOf_pres st1 p h

theorem createBookmark_snd (st : DB) (req : CreateBookmarkReq) (now : String)
    (hv : (falsyStr req.title || falsyStr req.url) = false) :
    (createBookmark st req now).2 =
      (createAssocStep (createInsertedDB st req now) st.nextBookmarkId req.tagIds).2 := by
  unfold createBookmark
  rw [if_neg (by simp [hv])]
  rcases createAssocStep (createInsertedDB st req now) st.nextBookmarkId req.tagIds
    with ⟨res, st2⟩
  cases res <;> rfl

theorem createBookmark_pres (st : DB) (req : CreateBookmarkReq) (now : String)
    (h : RefIntegrity st) : RefIntegrity (createBookmark st req now).2 := by
  by_cases hv : (falsyStr req.title || falsyStr req.url) = true
  · unfold createBookmark
    rw [if_pos hv]; exact h
  · have h1 : RefIntegrity (createInsertedDB st req now) := by
      intro a ha
      obtain ⟨⟨b, hb1, hb2⟩, hti⟩ := h a ha
      exact ⟨⟨b, List.mem_append_left _ hb1, hb2⟩, hti⟩
    rw [createBookmark_snd st req now (by simpa using hv)]
    exact createAssocStep_pres (createInsertedDB st req now) st.nextBookmarkId
      req.tagIds h1

theorem updateBookmark_snd (st : DB) (p : IdParam) (patch : UpdateBookmarkReq)
    (now : String) (ex : BookmarkRow) (hnan : ¬ p = .nan)
    (hfind : st.bookmarks.find? (fun b => idMatches p b.id) = some ex) :
    (updateBookmark st p patch now).2 =
      (updateAssocStep (updateRowDB st p patch ex now) p ex.id patch.tagIds).2 := by
  unfold updateBookmark
  rw [if_neg hnan, hfind]
  dsimp only
  rcases updateAssocStep (updateRowDB st p patch ex now) p ex.id patch.tagIds
    with ⟨res, st2⟩
  cases res <;> rfl

theorem updateBookmark_pres (st : DB) (p : IdParam) (patch : UpdateBookmarkReq)
    (now : String) (h : RefIntegrity st) : RefIntegrity (updateBookmark st p patch now).2 := by
  by_cases hnan : p = .nan
  · unfold updateBookmark
    rw [if_pos hnan]; exact h
  · cases hfind : st.bookmarks.find? (fun b => idMatches p b.id) with
    | none =>
      unfold updateBookmark
      rw [if_neg hnan, hfind]
      exact h
    | some ex =>
      have h1 : RefIntegrity (updateRowDB st p patch ex now) := by
        intro a ha
        obtain ⟨⟨b, hb1, hb2⟩, hti⟩ := h a ha
        refine ⟨⟨if idMatches p b.id then updatedRow patch ex now b else b, ?_, ?_⟩, hti⟩
        · exact List.mem_map_of_mem _ hb1
        · by_cases hm : idMatches p b.id = true
          · rw [if_pos hm, updatedRow_id]; exact hb2
          · rw [if_neg hm]; exact hb2
      rw [updateBookmark_snd st p patch now ex hnan hfind]
      exact updateAssocStep_pres (updateRowDB st p patch ex now) p ex.id
        patch.tagIds h1

theorem deleteBookmark_pres (st : DB) (p : IdParam) (h : RefIntegrity st) :
    RefIntegrity (deleteBookmark st p).2 := by
  unfold deleteBookmark
  by_cases hnan : p = .nan
  · rw [if_pos hnan]; exact h
  · rw [if_neg hnan]
    cases hfind : st.bookmarks.find? (fun b => idMatches p b.id) with
    | none => exact h
    | some ex =>
      intro a ha
      simp only [List.mem_filter] at ha
      obtain ⟨⟨b, hb1, hb2⟩, hti⟩ := h a ha.1
      refine ⟨⟨b, List.mem_filter.mpr ⟨hb1, ?_⟩, hb2⟩, hti⟩
      rw [hb2]
      exact ha.2

theorem deleteTag_pres (st : DB) (p : IdParam) (h : RefIntegrity st) :
    RefIntegrity (deleteTag st p).2 := by
  unfold deleteTag
  by_cases hnan : p = .nan
  · rw [if_pos hnan]; exact h
  · rw [if_neg hnan]
    cases hfind : st.tags.find? (fun t => idMatches p t.id) with
    | none => exact h
    | some ex =>
      intro a ha
      simp only [List.mem_filter] at ha
      obtain ⟨hbi, ⟨t, ht1, ht2⟩⟩ := h a ha.1
      refine ⟨hbi, ⟨t, List.mem_filter.mpr ⟨ht1, ?_⟩, ht2⟩⟩
      rw [ht2]
      exact ha.2

theorem createTag_pres (st : DB) (name color : Option String) (ioFail : Bool)
    (h : RefIntegrity st) : RefIntegrity (createTag st name color ioFail).2 := by
  unfold createTag
  by_cases hv : falsyStr name = true
  · rw [if_pos hv]; exact h
  · rw [if_neg hv]
    by_cases hio : ioFail = true
    · rw [if_pos hio]; exact h
    · rw [if_neg hio]
      by_cases hdup : (st.tags.any (fun t => t.name == name.getD "")) = true
      · rw [if_pos hdup]; exact h
      · rw [if_neg hdup]
        intro a ha
        obtain ⟨hbi, ⟨t, ht1, ht2⟩⟩ := h a ha
        exact ⟨hbi, ⟨t, List.mem_append_left _ ht1, ht2⟩⟩

theorem reachable_integrity (st : DB) (h : Reachable st) : RefIntegrity st := by
  induction h with
  | init => intro a ha; exact absurd ha (List.not_mem_nil _)
  | step op _ ih =>
    cases op with
    | opCreate req now => exact createBookmark_pres _ req now ih
    | opUpdate p patch now => exact updateBookmark_pres _ p patch now ih
    | opDeleteBookmark p => exact deleteBookmark_pres _ p ih
    | opCreateTag name color ioFail => exact createTag_pres _ name color ioFail ih
    | opDeleteTag p => exact deleteTag_pres _ p ih

/-! ### `LIKE` versus case-insensitive substring containment -/

theorem likeM_nil (s : List Char) : likeM [] s = s.isEmpty :=
  rfl

theorem likeM_pct (ps : List Char) (s : List Char) :
    likeM ('%' :: ps) s = s.tails.any (fun u => likeM ps u) := by
  simp [likeM]

theorem likeM_char_nil (p : Char) (ps : List Char) (hp : ¬ p = '%') :
    likeM (p :: ps) [] = false := by
  simp [likeM, hp]

theorem likeM_char_cons (p : Char) (ps : List Char) (d : Char) (s' : List Char)
    (hp : ¬ p = '%') (hu : ¬ p = '_') :
    likeM (p :: ps) (d :: s') = ((asciiLower p == asciiLower d) && likeM ps s') := by
  simp [likeM, hp, hu]

theorem startsCI_iff : ∀ (p t : List Char),
    (startsCI p t = true ↔ ∃ rest, t.map asciiLower = p.map asciiLower ++ rest)
  | [], t => by simp [startsCI]
  | c :: p, [] => by simp [startsCI]
  | c :: p, d :: t => by
    simp only [startsCI, Bool.and_eq_true, beq_iff_eq, List.map_cons, List.cons_append]
    rw [startsCI_iff p t]
    constructor
    · rintro ⟨h1, rest, h2⟩
      exact ⟨rest, by rw [h1, h2]⟩
    · rintro ⟨rest, h⟩
      rw [List.cons_eq_cons] at h
      exact ⟨h.1.symm, rest, h.2⟩

theorem likeM_lit_pct : ∀ (p : List Char), (∀ c ∈ p, ¬ c = '%' ∧ ¬ c = '_') →
    ∀ t : List Char, likeM (p ++ ['%']) t = startsCI p t
  | [], _, t => by
    rw [List.nil_append, likeM_pct]
    show t.tails.any (fun u => likeM [] u) = true
    exact List.any_eq_true.mpr ⟨[], (List.mem_tails _ _).mpr List.nil_suffix, rfl⟩
  | c :: p, h, t => by
    have hc := h c (List.mem_cons_self _ _)
    cases t with
    | nil =>
      rw [List.cons_append, likeM_char_nil c _ hc.1]
      rfl
    | cons d t' =>
      rw [List.cons_append, likeM_char_cons c _ d t' hc.1 hc.2,
        likeM_lit_pct p (fun x hx => h x (List.mem_cons_of_mem _ hx)) t']
      rfl

theorem likeM_pattern (p : List Char) (h : ∀ c ∈ p, ¬ c = '%' ∧ ¬ c = '_')
    (t : List Char) : likeM ('%' :: (p ++ ['%'])) t = subCI p t := by
  rw [likeM_pct, subCI]
  rw [Bool.eq_iff_iff]
  simp only [List.any_eq_true]
  constructor
  · rintro ⟨u, hu, hl⟩
    exact ⟨u, hu, by rw [← likeM_lit_pct p h u]; exact hl⟩
  · rintro ⟨u, hu, hs⟩
    exact ⟨u, hu, by rw [likeM_lit_pct p h u]; exact hs⟩

theorem subCI_iff (p t : List Char) : subCI p t = true ↔ ContainsCI p t := by
  unfold subCI ContainsCI
  simp only [List.any_eq_true]
  constructor
  · rintro ⟨u, hu, hs⟩
    obtain ⟨w, hw⟩ := (List.mem_tails _ _).mp hu
    obtain ⟨rest, hrest⟩ := (startsCI_iff p u).mp hs
    refine ⟨w.map asciiLower, rest, ?_⟩
    rw [← hw, List.map_append, hrest, List.append_assoc]
  · rintro ⟨pre, post, hc⟩
    refine ⟨t.drop pre.length, (List.mem_tails _ _).mpr ⟨t.take pre.length,
      List.take_append_drop _ _⟩, ?_⟩
    refine (startsCI_iff p _).mpr ⟨post, ?_⟩
    rw [List.map_drop, hc, List.append_assoc, List.drop_left]

theorem matchesSearch_iff (s : String) (b : BookmarkRow)
    (h : ∀ c ∈ s.data, ¬ c = '%' ∧ ¬ c = '_') :
    matchesSearch s b = true ↔
      ContainsCI s.data b.title.data ∨ ContainsCI s.data b.url.data ∨
        ContainsCI s.data b.description.data := by
  unfold matchesSearch likePattern
  simp only [List.cons_append]
  rw [likeM_pattern s.data h, likeM_pattern s.data h, likeM_pattern s.data h]
  simp only [Bool.or_eq_true, subCI_iff, or_assoc]

/-! ### Characterizing `listBookmarks` -/

theorem lb_sorted (l : List BookmarkRow) (st : DB) :
    List.Pairwise (fun x y : BookmarkWithTags => y.createdAt ≤ x.createdAt)
      ((List.insertionSort createdDesc l).map (attachTags st)) := by
  refine List.Pairwise.map (attachTags st) (fun a b hab => hab) ?_
  exact List.sorted_insertionSort createdDesc l

theorem lb_mem (l : List BookmarkRow) (st : DB) (bw : BookmarkWithTags) :
    bw ∈ (List.insertionSort createdDesc l).map (attachTags st) ↔
      ∃ row ∈ l, bw = attachTags st row := by
  rw [List.mem_map]
  constructor
  · rintro ⟨row, hrow, hbw⟩
    exact ⟨row, (List.perm_insertionSort createdDesc l).mem_iff.mp hrow, hbw.symm⟩
  · rintro ⟨row, hrow, hbw⟩
    exact ⟨row, (List.perm_insertionSort createdDesc l).mem_iff.mpr hrow, hbw.symm⟩

theorem lb_subperm_filter (q : BookmarkRow → Bool) (l : List BookmarkRow) :
    List.Subperm (List.insertionSort createdDesc (l.filter q)) l :=
  (List.perm_insertionSort createdDesc _).subperm.trans (List.filter_sublist l).subperm

theorem lb_subperm_all (l : List BookmarkRow) :
    List.Subperm (List.insertionSort createdDesc l) l :=
  (List.perm_insertionSort createdDesc l).subperm

/-! ### Claims -/

/-- C2: for every filter input to `listBookmarks`, the filters are mutually
exclusive with `tagId` taking priority: if `tagId` is present the result is
exactly the bookmarks associated with that tag (deduplicated — the rows are
a sub-permutation of the table — and `search` is ignored); otherwise if
`search` is a non-empty string the result is the text-filtered list;
otherwise (including `search` present but empty) the result is all
bookmarks — and in every case the result is ordered by `createdAt`
descending. -/
theorem claim_C2 (st : DB) (f : ListFilter) :
    List.Pairwise (fun x y : BookmarkWithTags => y.createdAt ≤ x.createdAt)
      (listBookmarks st f) ∧
    (∃ rows, listBookmarks st f = rows.map (attachTags st) ∧
      List.Subperm rows st.bookmarks) ∧
    (∀ t, f.tagId = some t →
      ∀ bw, bw ∈ listBookmarks st f ↔
        ∃ row ∈ st.bookmarks, bw = attachTags st row ∧
          ∃ a ∈ st.bookmark_tags, a.bookmark_id = row.id ∧ a.tag_id = t) ∧
    (∀ s, f.tagId = none → f.search = some s → ¬ s = "" →
      ∀ bw, bw ∈ listBookmarks st f ↔
        ∃ row ∈ st.bookmarks, bw = attachTags st row ∧ matchesSearch s row = true) ∧
    (f.tagId = none → (f.search = none ∨ f.search = some "") →
      ∀ bw, bw ∈ listBookmarks st f ↔ ∃ row ∈ st.bookmarks, bw = attachTags st row) := by
  rcases f with ⟨fs, ft⟩
  cases ft with
  | some t =>
    simp only [listBookmarks]
    refine ⟨lb_sorted _ st, ⟨_, rfl, lb_subperm_filter _ _⟩, ?_, ?_, ?_⟩
    · intro t' ht' bw
      cases ht'
      rw [lb_mem]
      simp only [List.mem_filter, List.any_eq_true, Bool.and_eq_true, beq_iff_eq]
      constructor
      · rintro ⟨row, ⟨hrow, a, ha, h1, h2⟩, hbw⟩
        exact ⟨row, hrow, hbw, a, ha, h1, h2⟩
      · rintro ⟨row, hrow, hbw, a, ha, h1, h2⟩
        exact ⟨row, ⟨hrow, a, ha, h1, h2⟩, hbw⟩
    · intro s hnone
      cases hnone
    · intro hnone
      cases hnone
  | none =>
    cases fs with
    | none =>
      simp only [listBookmarks]
      refine ⟨lb_sorted _ st, ⟨_, rfl, lb_subperm_all _⟩, ?_, ?_, ?_⟩
      · intro t ht
        cases ht
      · intro s _ hs
        cases hs
      · intro _ _ bw
        exact lb_mem _ st bw
    | some s0 =>
      by_cases he : s0.isEmpty = true
      · have hs0 : s0 = "" := (String.isEmpty_iff _).mp he
        simp only [listBookmarks, he, eq_self_iff_true, if_true]
        refine ⟨lb_sorted _ st, ⟨_, rfl, lb_subperm_all _⟩, ?_, ?_, ?_⟩
        · intro t ht
          cases ht
        · intro s _ hs hne
          rw [Option.some_inj] at hs
          exact absurd (hs ▸ hs0) hne
        · intro _ _ bw
          exact lb_mem _ st bw
      · have he' : s0.isEmpty = false := by simpa using he
        simp only [listBookmarks, he', Bool.false_eq_true, if_false]
        refine ⟨lb_sorted _ st, ⟨_, rfl, lb_subperm_filter _ _⟩, ?_, ?_, ?_⟩
        · intro t ht
          cases ht
        · intro s _ hs hne bw
          rw [Option.some_inj] at hs
          cases hs
          rw [lb_mem]
          simp only [List.mem_filter]
          constructor
          · rintro ⟨row, ⟨hrow, hm⟩, hbw⟩
            exact ⟨row, hrow, hbw, hm⟩
          · rintro ⟨row, hrow, hbw, hm⟩
            exact ⟨row, ⟨hrow, hm⟩, hbw⟩
        · intro _ habs
          rcases habs with habs | habs
          · cases habs
          · rw [Option.some_inj] at habs
            rw [habs] at he
            exact absurd rfl he

/-- Concrete scenario exercising `claim_C2`: with both `search` and `tagId`
supplied, the tag filter wins and a bookmark associated with the tag is
listed even though the search string matches nothing. -/
theorem claim_C2_witness :
    attachTags ⟨[⟨1, "A", "u", "", "", "t0", "t0"⟩], [⟨1, "dev", "#f"⟩], [⟨1, 1⟩], 2, 2⟩
        ⟨1, "A", "u", "", "", "t0", "t0"⟩ ∈
      listBookmarks ⟨[⟨1, "A", "u", "", "", "t0", "t0"⟩], [⟨1, "dev", "#f"⟩], [⟨1, 1⟩], 2, 2⟩
        ⟨some "zzz", some 1⟩ := by
  refine ((claim_C2 ⟨[⟨1, "A", "u", "", "", "t0", "t0"⟩], [⟨1, "dev", "#f"⟩], [⟨1, 1⟩], 2, 2⟩
    ⟨some "zzz", some 1⟩).2.2.1 1 rfl _).mpr ?_
  exact ⟨⟨1, "A", "u", "", "", "t0", "t0"⟩, by decide, rfl, ⟨1, 1⟩, by decide, rfl, rfl⟩

theorem updateBookmark_fst_ok (st : DB) (p : IdParam) (patch : UpdateBookmarkReq)
    (now : String) (ex : BookmarkRow) (hnan : ¬ p = .nan)
    (hfind : st.bookmarks.find? (fun b => idMatches p b.id) = some ex)
    (hok : (updateAssocStep (updateRowDB st p patch ex now) p ex.id patch.tagIds).1 =
      .ok ()) :
    ∃ bw, (updateBookmark st p patch now).1 = .ok bw := by
  unfold updateBookmark
  rw [if_neg hnan, hfind]
  dsimp only
  rcases hstep : updateAssocStep (updateRowDB st p patch ex now) p ex.id patch.tagIds
    with ⟨res, st2⟩
  rw [hstep] at hok
  cases res with
  | ok u => exact ⟨_, rfl⟩
  | error e2 => simp at hok

/-- State of the C1 scenario: one tag (id 1) exists, tag 99 does not. -/
def c1St : DB :=
  { emptyDB with tags := [⟨1, "dev", "#fff"⟩], nextTagId := 2 }

/-- Create request of the C1 scenario: valid fields, `tagIds = [1, 99]`. -/
def c1Req : CreateBookmarkReq :=
  ⟨some "A", some "http://a", none, none, some [1, 99]⟩

/-- C1 fails on the code: `createBookmark` with `tagIds = [1, 99]` (99 is not
an existing tag) aborts on the second association insert, but the bookmark
row and the association to tag 1 stay visible — the store is not as if the
operation never ran, because no transaction wraps the statements. -/
theorem claim_C1_counterexample :
    (createBookmark c1St c1Req "t0").1 = .error .fkViolation ∧
    ¬ (createBookmark c1St c1Req "t0").2 = c1St ∧
    (⟨1, 1⟩ : BookmarkTagRow) ∈ (createBookmark c1St c1Req "t0").2.bookmark_tags := by
  decide

/-- C1 (amended): the create/update statement sequences are applied one at a
time with no surrounding transaction.  When the association-insert loop of
a `createBookmark` fails after validation, the inserted bookmark row
remains; when the loop of an `updateBookmark` whose patch contains
`tagIds` fails, the row update and the deletion of the old association
rows remain, and the bookmark's remaining association rows all come from
the new `tagIds` sequence (the prefix inserted before the failure). -/
theorem claim_C1 :
    (∀ (st : DB) (req : CreateBookmarkReq) (now : String) (e : ApiErr),
      (falsyStr req.title || falsyStr req.url) = false →
      (createBookmark st req now).1 = .error e →
      (createBookmark st req now).2.bookmarks =
        st.bookmarks ++ [newBookmarkRow st req now]) ∧
    (∀ (st : DB) (p : IdParam) (patch : UpdateBookmarkReq) (now : String)
        (ts : List Int) (e : ApiErr) (ex : BookmarkRow),
      patch.tagIds = some ts →
      st.bookmarks.find? (fun b => idMatches p b.id) = some ex →
      (updateBookmark st p patch now).1 = .error e →
      (updateBookmark st p patch now).2.bookmarks =
        (updateRowDB st p patch ex now).bookmarks ∧
      ∀ a ∈ (updateBookmark st p patch now).2.bookmark_tags,
        idMatches p a.bookmark_id = true → a.tag_id ∈ ts) := by
  constructor
  · intro st req now e hv _
    rw [createBookmark_snd st req now hv, (createAssocStep_frame _ _ _).1]
    rfl
  · intro st p patch now ts e ex htags hfind herr
    have hpex : idMatches p ex.id = true := by
      have := List.find?_some hfind
      simpa using this
    have hnan : ¬ p = .nan := by
      intro hp
      rw [hp] at hpex
      exact absurd hpex (by simp [idMatches])
    have hsnd := updateBookmark_snd st p patch now ex hnan hfind
    refine ⟨by rw [hsnd, (updateAssocStep_frame _ _ _ _).1], ?_⟩
    intro a ha hmatch
    rw [hsnd] at ha
    rw [htags] at ha
    by_cases hl : 0 < ts.length
    · simp only [updateAssocStep, if_pos hl] at ha
      rcases ibt_assocs_sub ts _ ex.id a ha with hold | ⟨_, hts, _, _⟩
      · have := (List.mem_filter.mp hold).2
        rw [hmatch] at this
        exact absurd this (by simp)
      · exact hts
    · exfalso
      obtain ⟨bw, hbw⟩ := updateBookmark_fst_ok st p patch now ex hnan hfind
        (by rw [htags]; simp only [updateAssocStep, if_neg hl])
      rw [herr] at hbw
      cases hbw

/-- State of the C1 update scenario: a bookmark with an existing association
to tag 1; the patch replaces the tag set with `[1, 99]` and fails on 99. -/
def c1uSt : DB :=
  ⟨[⟨1, "A", "u", "", "", "t0", "t0"⟩], [⟨1, "dev", "#fff"⟩], [⟨1, 1⟩], 2, 2⟩

/-- Patch of the C1 update scenario. -/
def c1uPatch : UpdateBookmarkReq :=
  ⟨none, none, none, none, some [1, 99]⟩

/-- Concrete instantiation of `claim_C1` at the failing create and the
failing update of the C1 scenarios. -/
theorem claim_C1_witness :
    ((createBookmark c1St c1Req "t0").2.bookmarks =
      c1St.bookmarks ++ [newBookmarkRow c1St c1Req "t0"]) ∧
    ((updateBookmark c1uSt (.intVal 1) c1uPatch "t1").2.bookmarks =
      (updateRowDB c1uSt (.intVal 1) c1uPatch ⟨1, "A", "u", "", "", "t0", "t0"⟩
        "t1").bookmarks ∧
    ∀ a ∈ (updateBookmark c1uSt (.intVal 1) c1uPatch "t1").2.bookmark_tags,
      idMatches (.intVal 1) a.bookmark_id = true → a.tag_id ∈ [1, 99]) :=
  ⟨claim_C1.1 c1St c1Req "t0" .fkViolation (by decide) (by decide),
   claim_C1.2 c1uSt (.intVal 1) c1uPatch "t1" [1, 99] .fkViolation
     ⟨1, "A", "u", "", "", "t0", "t0"⟩ rfl (by decide) (by decide)⟩

/-- State of the C4 counterexample: a single bookmark titled `abc` whose
fields contain no `%` character anywhere. -/
def c4St : DB :=
  ⟨[⟨1, "abc", "u", "", "", "t0", "t0"⟩], [], [], 2, 1⟩

/-- C4 fails on the code: the search string is interpolated into the `LIKE`
pattern without escaping, so searching for `%` returns a bookmark even
though none of its three fields contains `%` as a substring. -/
theorem claim_C4_counterexample :
    listBookmarks c4St ⟨some "%", none⟩ =
      [attachTags c4St ⟨1, "abc", "u", "", "", "t0", "t0"⟩] ∧
    ¬ ContainsCI "%".data "abc".data ∧ ¬ ContainsCI "%".data "u".data ∧
    ¬ ContainsCI "%".data "".data := by
  refine ⟨by decide, ?_, ?_, ?_⟩
  · intro hc
    exact absurd ((subCI_iff _ _).mpr hc) (by decide)
  · intro hc
    exact absurd ((subCI_iff _ _).mpr hc) (by decide)
  · intro hc
    exact absurd ((subCI_iff _ _).mpr hc) (by decide)

/-- C4 (amended): for every non-empty search string containing no `LIKE`
wildcard (`%` or `_`), `listBookmarks` with only `search` set returns
exactly the bookmarks one of whose `title`, `url` or `description`
contains the string as an ASCII-case-insensitive substring; a string with
wildcards is instead interpreted under `LIKE` pattern semantics. -/
theorem claim_C4 (st : DB) (s : String) (hs : ¬ s = "")
    (hw : ∀ c ∈ s.data, ¬ c = '%' ∧ ¬ c = '_') (bw : BookmarkWithTags) :
    bw ∈ listBookmarks st ⟨some s, none⟩ ↔
      ∃ row ∈ st.bookmarks, bw = attachTags st row ∧
        (ContainsCI s.data row.title.data ∨ ContainsCI s.data row.url.data ∨
          ContainsCI s.data row.description.data) := by
  have he' : s.isEmpty = false := by
    rw [← Bool.not_eq_true]
    intro h
    exact hs ((String.isEmpty_iff _).mp h)
  simp only [listBookmarks, he', Bool.false_eq_true, if_false]
  rw [lb_mem]
  constructor
  · rintro ⟨row, hrow, hbw⟩
    obtain ⟨hmem, hm⟩ := List.mem_filter.mp hrow
    exact ⟨row, hmem, hbw, (matchesSearch_iff s row hw).mp hm⟩
  · rintro ⟨row, hmem, hbw, hc⟩
    exact ⟨row, List.mem_filter.mpr ⟨hmem, (matchesSearch_iff s row hw).mpr hc⟩, hbw⟩

/-- State of the C4 witness: the spec's own example, bookmarks `GitHub` and
`Example`, searched for `git`. -/
def c4wSt : DB :=
  ⟨[⟨1, "GitHub", "https://github.com", "", "", "t0", "t0"⟩,
    ⟨2, "Example", "https://example.com", "", "", "t1", "t1"⟩], [], [], 3, 1⟩

/-- Concrete instantiation of `claim_C4`: `GitHub` matches the search `git`
case-insensitively. -/
theorem claim_C4_witness :
    attachTags c4wSt ⟨1, "GitHub", "https://github.com", "", "", "t0", "t0"⟩ ∈
      listBookmarks c4wSt ⟨some "git", none⟩ :=
  (claim_C4 c4wSt "git" (by decide) (by decide) _).mpr
    ⟨⟨1, "GitHub", "https://github.com", "", "", "t0", "t0"⟩, by decide, rfl,
      Or.inl ⟨[], ['h', 'u', 'b'], by decide⟩⟩

/-- C5: in every reachable store, every association row references an
existing bookmark and an existing tag, and a successful `deleteBookmark`
(resp. `deleteTag`) leaves no association row referencing the deleted
parent queryable. -/
theorem claim_C5 (st : DB) (h : Reachable st) :
    RefIntegrity st ∧
    (∀ p n, (deleteBookmark st p).1 = .ok n →
      ∀ a ∈ (deleteBookmark st p).2.bookmark_tags, ¬ a.bookmark_id = n) ∧
    (∀ p n, (deleteTag st p).1 = .ok n →
      ∀ a ∈ (deleteTag st p).2.bookmark_tags, ¬ a.tag_id = n) := by
  refine ⟨reachable_integrity st h, ?_, ?_⟩
  · intro p n hok a ha han
    unfold deleteBookmark at hok ha
    by_cases hnan : p = .nan
    · rw [if_pos hnan] at hok
      cases hok
    · rw [if_neg hnan] at hok ha
      cases hfind : st.bookmarks.find? (fun b => idMatches p b.id) with
      | none =>
        rw [hfind] at hok
        cases hok
      | some ex =>
        rw [hfind] at hok ha
        have hex : n = ex.id := by
          cases hok
          rfl
        have hpex : idMatches p ex.id = true := by
          have := List.find?_some hfind
          simpa using this
        have hfa := (List.mem_filter.mp ha).2
        rw [han, hex] at hfa
        rw [hpex] at hfa
        cases hfa
  · intro p n hok a ha han
    unfold deleteTag at hok ha
    by_cases hnan : p = .nan
    · rw [if_pos hnan] at hok
      cases hok
    · rw [if_neg hnan] at hok ha
      cases hfind : st.tags.find? (fun t => idMatches p t.id) with
      | none =>
        rw [hfind] at hok
        cases hok
      | some ex =>
        rw [hfind] at hok ha
        have hex : n = ex.id := by
          cases hok
          rfl
        have hpex : idMatches p ex.id = true := by
          have := List.find?_some hfind
          simpa using this
        have hfa := (List.mem_filter.mp ha).2
        rw [han, hex] at hfa
        rw [hpex] at hfa
        cases hfa

/-- Concrete instantiation of `claim_C5` at a reachable store (a fresh
database after one `createTag` request). -/
theorem claim_C5_witness :
    RefIntegrity (applyOp emptyDB (.opCreateTag (some "work") none false)) :=
  (claim_C5 _ (Reachable.step _ Reachable.init)).1

/-- C6 fails on the code: an underlying storage failure during the tag
insert is reported as Conflict (409) by the catch-all, even though no tag
with the requested name exists, instead of propagating unchanged. -/
theorem claim_C6_counterexample :
    createTag emptyDB (some "work") none true = (.error (.app 409), emptyDB) ∧
    emptyDB.tags.any (fun t => t.name == "work") = false := by
  decide

/-- C6 (amended): `createTag` fails with InvalidInput (400) when the name is
empty or absent; it fails with Conflict (409) whenever the insert throws —
both when the name already exists (unique-constraint violation) and when
any other storage failure occurs during the insert, which the catch-all
also reports as Conflict rather than propagating; otherwise the tag is
created with the default color `#6366f1` when `color` is absent. -/
theorem claim_C6 (st : DB) (name color : Option String) (ioFail : Bool) :
    (falsyStr name = true → createTag st name color ioFail = (.error (.app 400), st)) ∧
    (falsyStr name = false →
      (ioFail = true ∨ st.tags.any (fun t => t.name == name.getD "") = true) →
      createTag st name color ioFail = (.error (.app 409), st)) ∧
    (falsyStr name = false → ioFail = false →
      st.tags.any (fun t => t.name == name.getD "") = false →
      createTag st name color ioFail =
        (.ok ⟨st.nextTagId, name.getD "", color.getD "#6366f1"⟩,
          { st with
            tags := st.tags ++ [⟨st.nextTagId, name.getD "", color.getD "#6366f1"⟩],
            nextTagId := st.nextTagId + 1 })) := by
  unfold createTag
  refine ⟨?_, ?_, ?_⟩
  · intro hv
    rw [if_pos hv]
  · intro hv hbad
    rw [if_neg (by simp [hv])]
    rcases hbad with hio | hdup
    · rw [if_pos hio]
    · by_cases hio2 : ioFail = true
      · rw [if_pos hio2]
      · rw [if_neg hio2, if_pos hdup]
  · intro hv hio hdup
    rw [if_neg (by simp [hv]), if_neg (by simp [hio]), if_neg (by simp [hdup])]

/-- Concrete instantiation of `claim_C6`: the three behaviors at concrete
inputs (missing name, storage failure on a fresh name, successful create). -/
theorem claim_C6_witness :
    createTag emptyDB none none false = (.error (.app 400), emptyDB) ∧
    createTag emptyDB (some "w") none true = (.error (.app 409), emptyDB) ∧
    createTag emptyDB (some "w") none false =
      (.ok ⟨1, "w", "#6366f1"⟩,
        { emptyDB with tags := emptyDB.tags ++ [⟨1, "w", "#6366f1"⟩], nextTagId := 2 }) :=
  ⟨(claim_C6 emptyDB none none false).1 rfl,
   (claim_C6 emptyDB (some "w") none true).2.1 rfl (Or.inl rfl),
   (claim_C6 emptyDB (some "w") none false).2.2 rfl rfl rfl⟩

/-- C8 fails on the code: a non-integer numeric id (modelled by
`IdParam.nonIntVal`, e.g. `1.5`) passes the `isNaN` check, is looked up,
and is reported NotFound (404) — not InvalidInput (400) as claimed. -/
theorem claim_C8_counterexample :
    ¬ getBookmark emptyDB .nonIntVal = .error (.app 400) ∧
    getBookmark emptyDB .nonIntVal = .error (.app 404) := by
  decide

/-- C8 (amended): the id-taking operations reject with InvalidInput (400)
exactly the ids whose string is not numeric (`Number` yields NaN); a
numeric non-integer id such as `1.5` passes the check, matches no stored
integer id, and yields NotFound (404) with the store unchanged. -/
theorem claim_C8 (st : DB) (patch : UpdateBookmarkReq) (now : String) :
    getBookmark st .nan = .error (.app 400) ∧
    getBookmark st .nonIntVal = .error (.app 404) ∧
    updateBookmark st .nan patch now = (.error (.app 400), st) ∧
    updateBookmark st .nonIntVal patch now = (.error (.app 404), st) ∧
    deleteBookmark st .nan = (.error (.app 400), st) ∧
    deleteBookmark st .nonIntVal = (.error (.app 404), st) ∧
    deleteTag st .nan = (.error (.app 400), st) ∧
    deleteTag st .nonIntVal = (.error (.app 404), st) := by
  have hb : st.bookmarks.find? (fun b => idMatches .nonIntVal b.id) = none :=
    List.find?_eq_none.mpr (fun x _ => by simp [idMatches])
  have ht : st.tags.find? (fun t => idMatches .nonIntVal t.id) = none :=
    List.find?_eq_none.mpr (fun x _ => by simp [idMatches])
  refine ⟨?_, ?_, ?_, ?_, ?_, ?_, ?_, ?_⟩
  · unfold getBookmark
    rw [if_pos rfl]
  · unfold getBookmark
    rw [if_neg (by simp), hb]
  · unfold updateBookmark
    rw [if_pos rfl]
  · unfold updateBookmark
    rw [if_neg (by simp), hb]
  · unfold deleteBookmark
    rw [if_pos rfl]
  · unfold deleteBookmark
    rw [if_neg (by simp), hb]
  · unfold deleteTag
    rw [if_pos rfl]
  · unfold deleteTag
    rw [if_neg (by simp), ht]

/-- State of the C9 round trip: tags 1 and 2 exist. -/
def c9St : DB :=
  { emptyDB with tags := [⟨1, "t1", "#a"⟩, ⟨2, "t2", "#b"⟩], nextTagId := 3 }

/-- Create request of the C9 round trip. -/
def c9Req : CreateBookmarkReq :=
  ⟨some "A", some "http://a", none, none, some [1, 2]⟩

/-- C9: with tags 1 and 2 existing, creating
`{title:"A", url:"http://a", tagIds:[1,2]}` and immediately fetching the
returned id yields the same record, with `title = "A"`, `url = "http://a"`,
`createdAt = updatedAt`, and `tags` equal as a set to the two tags. -/
theorem claim_C9 :
    ∃ bw, (createBookmark c9St c9Req "t0").1 = .ok bw ∧
      getBookmark (createBookmark c9St c9Req "t0").2 (.intVal bw.id) = .ok bw ∧
      bw.title = "A" ∧ bw.url = "http://a" ∧ bw.createdAt = bw.updatedAt ∧
      (⟨1, "t1", "#a"⟩ : TagRow) ∈ bw.tags ∧ (⟨2, "t2", "#b"⟩ : TagRow) ∈ bw.tags ∧
      ∀ t ∈ bw.tags, t = ⟨1, "t1", "#a"⟩ ∨ t = ⟨2, "t2", "#b"⟩ := by
  refine ⟨⟨1, "A", "http://a", "", "", "t0", "t0",
    [⟨1, "t1", "#a"⟩, ⟨2, "t2", "#b"⟩]⟩, ?_⟩
  decide

theorem idMatches_true {p : IdParam} {n : Int} (h : idMatches p n = true) :
    p = .intVal n := by
  cases p with
  | intVal m =>
    simp only [idMatches, beq_iff_eq] at h
    rw [h]
  | nan => cases h
  | nonIntVal => cases h

theorem updateRowDB_map_find (st : DB) (p : IdParam) (patch : UpdateBookmarkReq)
    (ex : BookmarkRow) (now : String)
    (hfind : st.bookmarks.find? (fun b => idMatches p b.id) = some ex)
    (hpex : idMatches p ex.id = true) :
    (updateRowDB st p patch ex now).bookmarks.find? (fun b => idMatches p b.id) =
      some (updatedRow patch ex now ex) := by
  unfold updateRowDB
  rw [List.find?_map]
  have hfun : ((fun b => idMatches p b.id) ∘
      (fun b => if idMatches p b.id then updatedRow patch ex now b else b)) =
      (fun b => idMatches p b.id) := by
    funext b
    by_cases hm : idMatches p b.id = true
    · simp only [Function.comp_apply, if_pos hm, updatedRow_id]
    · simp only [Function.comp_apply, if_neg hm]
  rw [hfun, hfind]
  simp only [Option.map_some']
  rw [if_pos hpex]

theorem updateBookmark_ok_shape (st : DB) (p : IdParam) (patch : UpdateBookmarkReq)
    (now : String) (ex : BookmarkRow) (bw : BookmarkWithTags) (hnan : ¬ p = .nan)
    (hfind : st.bookmarks.find? (fun b => idMatches p b.id) = some ex)
    (hbw : (updateBookmark st p patch now).1 = .ok bw) :
    bw = attachTags (updateAssocStep (updateRowDB st p patch ex now) p ex.id patch.tagIds).2
      (updatedRow patch ex now ex) := by
  have hpex : idMatches p ex.id = true := by
    have := List.find?_some hfind
    simpa using this
  unfold updateBookmark at hbw
  rw [if_neg hnan, hfind] at hbw
  dsimp only at hbw
  rcases hstep : updateAssocStep (updateRowDB st p patch ex now) p ex.id patch.tagIds
    with ⟨res, st2⟩
  rw [hstep] at hbw
  cases res with
  | error e => cases hbw
  | ok u =>
    have hbk : st2.bookmarks = (updateRowDB st p patch ex now).bookmarks := by
      have := (updateAssocStep_frame (updateRowDB st p patch ex now) p ex.id patch.tagIds).1
      rw [hstep] at this
      exact this
    rw [Except.ok.injEq] at hbw
    rw [← hbw]
    have : st2.bookmarks.find? (fun b => idMatches p b.id) =
        some (updatedRow patch ex now ex) := by
      rw [hbk]
      exact updateRowDB_map_find st p patch ex now hfind hpex
    rw [this, Option.getD_some]

/-- State of the C3 scenarios: a bookmark with an old association to tag 2;
tags 1 and 2 exist, tag 99 does not. -/
def c3St : DB :=
  ⟨[⟨1, "A", "u", "d", "f", "t0", "t0"⟩], [⟨1, "a", "#1"⟩, ⟨2, "b", "#2"⟩], [⟨1, 2⟩], 2, 3⟩

/-- Patch of the C3 counterexample: `tagIds = [99]`, tag 99 nonexistent. -/
def c3cPatch : UpdateBookmarkReq :=
  ⟨none, none, none, none, some [99]⟩

/-- C3 fails on the code as stated over every patch: updating the bookmark
of `c3St` (whose association set is `{2}`) with `tagIds = [99]` does not
replace the association set by `{99}` — the old association is deleted,
then the insert aborts with a foreign-key error (tag 99 does not exist),
and the operation fails leaving the association set empty. -/
theorem claim_C3_counterexample :
    (updateBookmark c3St (.intVal 1) c3cPatch "t1").1 = .error .fkViolation ∧
    ¬ (⟨1, 99⟩ : BookmarkTagRow) ∈
      (updateBookmark c3St (.intVal 1) c3cPatch "t1").2.bookmark_tags ∧
    (updateBookmark c3St (.intVal 1) c3cPatch "t1").2.bookmark_tags = [] := by
  decide

/-- C3 (amended): for an existing bookmark and a patch whose `tagIds` (when
present) all reference existing tags, `updateBookmark` succeeds; the stored row is
overwritten exactly on the fields present in the patch (a present empty
string overwrites, absent fields keep their stored value), `updated_at` is
always refreshed to `now` and `created_at` kept; if `patch.tagIds` is
present (including `[]`) the bookmark's association set becomes exactly
the ids of the new sequence while other bookmarks' associations are
untouched, and if `patch.tagIds` is absent the association table is left
completely untouched. -/
theorem claim_C3 (st : DB) (p : IdParam) (patch : UpdateBookmarkReq) (now : String)
    (ex : BookmarkRow)
    (hfind : st.bookmarks.find? (fun b => idMatches p b.id) = some ex)
    (htags : ∀ ts, patch.tagIds = some ts → ∀ t ∈ ts, ∃ tg ∈ st.tags, tg.id = t) :
    (∃ bw, (updateBookmark st p patch now).1 = .ok bw) ∧
    (updateBookmark st p patch now).2.bookmarks = st.bookmarks.map (fun b =>
      if idMatches p b.id then updatedRow patch ex now b else b) ∧
    (∀ bw, (updateBookmark st p patch now).1 = .ok bw →
      bw.title = patch.title.getD ex.title ∧ bw.url = patch.url.getD ex.url ∧
      bw.description = patch.description.getD ex.description ∧
      bw.favicon = patch.favicon.getD ex.favicon ∧
      bw.createdAt = ex.created_at ∧ bw.updatedAt = now) ∧
    (patch.tagIds = none →
      (updateBookmark st p patch now).2.bookmark_tags = st.bookmark_tags) ∧
    (∀ ts, patch.tagIds = some ts →
      (∀ t : Int, (⟨ex.id, t⟩ : BookmarkTagRow) ∈
          (updateBookmark st p patch now).2.bookmark_tags ↔ t ∈ ts) ∧
      (∀ a ∈ (updateBookmark st p patch now).2.bookmark_tags,
        ¬ a.bookmark_id = ex.id → a ∈ st.bookmark_tags) ∧
      (∀ a ∈ st.bookmark_tags, ¬ a.bookmark_id = ex.id →
        a ∈ (updateBookmark st p patch now).2.bookmark_tags)) := by
  have hpex : idMatches p ex.id = true := by
    have := List.find?_some hfind
    simpa using this
  have hnan : ¬ p = .nan := by
    intro hp
    rw [hp] at hpex
    exact absurd hpex (by simp [idMatches])
  have hp' : p = .intVal ex.id := idMatches_true hpex
  have hsnd := updateBookmark_snd st p patch now ex hnan hfind
  have hexmem : ex ∈ st.bookmarks := List.mem_of_find?_eq_some hfind
  -- the association step succeeds
  have hok : (updateAssocStep (updateRowDB st p patch ex now) p ex.id patch.tagIds).1 =
      .ok () := by
    cases hts : patch.tagIds with
    | none => simp [updateAssocStep]
    | some ts =>
      by_cases hl : 0 < ts.length
      · simp only [updateAssocStep, if_pos hl]
        refine ibt_ok ts _ ex.id ?_ ?_
        · refine ⟨if idMatches p ex.id then updatedRow patch ex now ex else ex, ?_, ?_⟩
          · exact List.mem_map_of_mem _ hexmem
          · rw [if_pos hpex, updatedRow_id]
        · intro t htmem
          exact htags ts hts t htmem
      · simp only [updateAssocStep, if_neg hl]
  refine ⟨updateBookmark_fst_ok st p patch now ex hnan hfind hok,
    by rw [hsnd, (updateAssocStep_frame _ _ _ _).1]; rfl, ?_, ?_, ?_⟩
  · intro bw hbw
    rw [updateBookmark_ok_shape st p patch now ex bw hnan hfind hbw]
    exact ⟨rfl, rfl, rfl, rfl, rfl, rfl⟩
  · intro hts
    rw [hsnd, hts]
    rfl
  · intro ts hts
    rw [hsnd, hts]
    have hDassoc : (deleteAssocsOf (updateRowDB st p patch ex now) p).bookmark_tags =
        st.bookmark_tags.filter (fun a => !(idMatches p a.bookmark_id)) := rfl
    by_cases hl : 0 < ts.length
    · simp only [updateAssocStep, if_pos hl]
      refine ⟨?_, ?_, ?_⟩
      · intro t
        constructor
        · intro hmem
          rcases ibt_assocs_sub ts _ ex.id _ hmem with hold | ⟨_, hts2, _, _⟩
          · rw [hDassoc] at hold
            have := (List.mem_filter.mp hold).2
            simp only [hpex] at this
            cases this
          · exact hts2
        · intro htmem
          refine ibt_mem_new ts _ ex.id t ?_ ?_ htmem
          · refine ⟨if idMatches p ex.id then updatedRow patch ex now ex else ex, ?_, ?_⟩
            · exact List.mem_map_of_mem _ hexmem
            · rw [if_pos hpex, updatedRow_id]
          · intro u humem
            exact htags ts hts u humem
      · intro a ha hane
        rcases ibt_assocs_sub ts _ ex.id a ha with hold | ⟨haeq, _, _, _⟩
        · rw [hDassoc] at hold
          exact (List.mem_filter.mp hold).1
        · exact absurd haeq hane
      · intro a ha hane
        refine ibt_assocs_super ts _ ex.id a ?_
        rw [hDassoc]
        refine List.mem_filter.mpr ⟨ha, ?_⟩
        rw [hp']
        simp only [idMatches, Bool.not_eq_true']
        rw [beq_eq_false_iff_ne]
        exact fun he => hane he.symm
    · have hts0 : ts = [] := List.eq_nil_of_length_eq_zero (Nat.eq_zero_of_not_pos hl)
      subst hts0
      simp only [updateAssocStep, if_neg hl]
      refine ⟨?_, ?_, ?_⟩
      · intro t
        constructor
        · intro hmem
          rw [hDassoc] at hmem
          have := (List.mem_filter.mp hmem).2
          simp only [hpex] at this
          cases this
        · intro htmem
          cases htmem
      · intro a ha _
        rw [hDassoc] at ha
        exact (List.mem_filter.mp ha).1
      · intro a ha hane
        rw [hDassoc]
        refine List.mem_filter.mpr ⟨ha, ?_⟩
        rw [hp']
        simp only [idMatches, Bool.not_eq_true']
        rw [beq_eq_false_iff_ne]
        exact fun he => hane he.symm

/-- Patch of the C3 witness: sets `title`, clears `description` with an
explicit empty string and replaces the tag set with `[1]`. -/
def c3Patch : UpdateBookmarkReq :=
  ⟨some "B", none, some "", none, some [1]⟩

/-- Concrete instantiation of `claim_C3` at the C3 witness scenario. -/
theorem claim_C3_witness :
    (∃ bw, (updateBookmark c3St (.intVal 1) c3Patch "t1").1 = .ok bw) ∧
    ((⟨1, 1⟩ : BookmarkTagRow) ∈
        (updateBookmark c3St (.intVal 1) c3Patch "t1").2.bookmark_tags ↔
      (1 : Int) ∈ ([1] : List Int)) :=
  have hc := claim_C3 c3St (.intVal 1) c3Patch "t1" ⟨1, "A", "u", "d", "f", "t0", "t0"⟩
    (by decide)
    (fun ts hts => by
      injection hts with h
      subst h
      decide)
  ⟨hc.1, (hc.2.2.2.2 [1] rfl).1 1⟩

theorem falsyStr_false {o : Option String} (h : falsyStr o = false) :
    ¬ o.getD "" = "" := by
  cases o with
  | none => cases h
  | some str =>
    intro he
    rw [Option.getD_some] at he
    subst he
    cases h

/-- A store reached from a fresh database by creating a valid bookmark and
then updating it with an explicit empty `title`. -/
def c7Bad : DB :=
  applyOp (applyOp emptyDB (.opCreate ⟨some "A", some "u", none, none, none⟩ "t0"))
    (.opUpdate (.intVal 1) ⟨some "", none, none, none, none⟩ "t1")

/-- C7 fails on the code: `updateBookmark` merges the patch with `??`, which
treats a present empty string as a value, so an update with `title: ""`
stores a bookmark whose `title` is empty — the non-empty-title invariant is
not preserved, and the empty-title store is reachable. -/
theorem claim_C7_counterexample :
    Reachable c7Bad ∧ ∃ b ∈ c7Bad.bookmarks, b.title = "" := by
  refine ⟨?_, by decide⟩
  show Reachable (applyOp (applyOp emptyDB
    (.opCreate ⟨some "A", some "u", none, none, none⟩ "t0"))
    (.opUpdate (.intVal 1) ⟨some "", none, none, none, none⟩ "t1"))
  exact Reachable.step _ (Reachable.step _ Reachable.init)

/-- C7 (amended): `createBookmark` rejects a falsy `title`/`url`, so every
row it adds has a non-empty title and url; `updateBookmark` preserves the
non-emptiness invariant exactly when the patch does not set `title` or
`url` to an explicit empty string (a present empty string overwrites the
stored value with the empty string and breaks the invariant). -/
theorem claim_C7 :
    (∀ (st : DB) (req : CreateBookmarkReq) (now : String),
      ∀ b ∈ (createBookmark st req now).2.bookmarks,
        b ∈ st.bookmarks ∨ (¬ b.title = "" ∧ ¬ b.url = "")) ∧
    (∀ (st : DB) (p : IdParam) (patch : UpdateBookmarkReq) (now : String),
      ¬ patch.title = some "" → ¬ patch.url = some "" →
      (∀ b ∈ st.bookmarks, ¬ b.title = "" ∧ ¬ b.url = "") →
      ∀ b ∈ (updateBookmark st p patch now).2.bookmarks,
        ¬ b.title = "" ∧ ¬ b.url = "") := by
  constructor
  · intro st req now b hb
    by_cases hv : (falsyStr req.title || falsyStr req.url) = true
    · unfold createBookmark at hb
      rw [if_pos hv] at hb
      exact Or.inl hb
    · have hv' : (falsyStr req.title || falsyStr req.url) = false := by
        simpa using hv
      rw [createBookmark_snd st req now hv', (createAssocStep_frame _ _ _).1] at hb
      rcases List.mem_append.mp hb with h | h
      · exact Or.inl h
      · right
        have hbeq : b = newBookmarkRow st req now := by
          simpa using h
        subst hbeq
        obtain ⟨h1, h2⟩ := Bool.or_eq_false_iff.mp hv'
        exact ⟨falsyStr_false h1, falsyStr_false h2⟩
  · intro st p patch now ht hu hinv b hb
    by_cases hnan : p = .nan
    · unfold updateBookmark at hb
      rw [if_pos hnan] at hb
      exact hinv b hb
    · cases hfind : st.bookmarks.find? (fun x => idMatches p x.id) with
      | none =>
        unfold updateBookmark at hb
        rw [if_neg hnan, hfind] at hb
        exact hinv b hb
      | some ex =>
        rw [updateBookmark_snd st p patch now ex hnan hfind,
          (updateAssocStep_frame _ _ _ _).1] at hb
        obtain ⟨b0, hb0, hfb⟩ := List.mem_map.mp hb
        have hexmem : ex ∈ st.bookmarks := List.mem_of_find?_eq_some hfind
        by_cases hm : idMatches p b0.id = true
        · rw [if_pos hm] at hfb
          rw [← hfb]
          constructor
          · show ¬ patch.title.getD ex.title = ""
            cases hpt : patch.title with
            | none =>
              rw [Option.getD_none]
              exact (hinv ex hexmem).1
            | some str =>
              rw [Option.getD_some]
              intro he
              subst he
              exact ht hpt
          · show ¬ patch.url.getD ex.url = ""
            cases hpu : patch.url with
            | none =>
              rw [Option.getD_none]
              exact (hinv ex hexmem).2
            | some str =>
              rw [Option.getD_some]
              intro he
              subst he
              exact hu hpu
        · rw [if_neg hm] at hfb
          rw [← hfb]
          exact hinv b0 hb0

/-- State of the C7 witness: one well-formed bookmark. -/
def c7wSt : DB :=
  ⟨[⟨1, "A", "u", "", "", "t0", "t0"⟩], [], [], 2, 1⟩

/-- Concrete instantiation of `claim_C7`: the invariant after a concrete
create and after a concrete title-setting update. -/
theorem claim_C7_witness :
    (∀ b ∈ (createBookmark emptyDB ⟨some "A", some "u", none, none, none⟩
        "t0").2.bookmarks,
      b ∈ emptyDB.bookmarks ∨ (¬ b.title = "" ∧ ¬ b.url = "")) ∧
    (∀ b ∈ (updateBookmark c7wSt (.intVal 1) ⟨some "B", none, none, none, none⟩
        "t1").2.bookmarks,
      ¬ b.title = "" ∧ ¬ b.url = "") :=
  ⟨claim_C7.1 emptyDB ⟨some "A", some "u", none, none, none⟩ "t0",
   claim_C7.2 c7wSt (.intVal 1) ⟨some "B", none, none, none, none⟩ "t1"
     (by decide) (by decide) (by decide)⟩

theorem find?_filter_of_imp {α : Type} (l : List α) (p q : α → Bool)
    (h : ∀ x, p x = true → q x = true) :
    (l.filter q).find? p = l.find? p := by
  induction l with
  | nil => rfl
  | cons x xs ih =>
    by_cases hq : q x = true
    · rw [List.filter_cons_of_pos hq]
      by_cases hp : p x = true
      · rw [List.find?_cons_of_pos _ hp, List.find?_cons_of_pos _ hp]
      · rw [List.find?_cons_of_neg _ hp, List.find?_cons_of_neg _ hp]
        exact ih
    · rw [List.filter_cons_of_neg hq]
      have hp : ¬ p x = true := fun hpx => hq (h x hpx)
      rw [List.find?_cons_of_neg _ hp]
      exact ih

theorem deleteTagView (tags : List TagRow) (assocs : List BookmarkTagRow)
    (bid n : Int) :
    ((assocs.filter (fun a => !(idMatches (.intVal n) a.tag_id))).filter
        (fun a => a.bookmark_id == bid)).filterMap
      (fun a => (tags.filter (fun t => !(idMatches (.intVal n) t.id))).find?
        (fun t => t.id == a.tag_id))
    = ((assocs.filter (fun a => a.bookmark_id == bid)).filterMap
        (fun a => tags.find? (fun t => t.id == a.tag_id))).filter
        (fun tg => !(tg.id == n)) := by
  induction assocs with
  | nil => rfl
  | cons a as ih =>
    by_cases h1 : (a.bookmark_id == bid) = true
    · by_cases h2 : (!(idMatches (.intVal n) a.tag_id)) = true
      · -- the association survives the tag delete: `a.tag_id ≠ n`
        have hne : ¬ n = a.tag_id := by
          have h2' : (n == a.tag_id) = false := by
            simpa [idMatches] using h2
          exact beq_eq_false_iff_ne.mp h2'
        have hfind : (tags.filter (fun t => !(idMatches (.intVal n) t.id))).find?
            (fun t => t.id == a.tag_id) = tags.find? (fun t => t.id == a.tag_id) := by
          refine find?_filter_of_imp tags _ _ ?_
          intro t hpt
          have hte : t.id = a.tag_id := by simpa using hpt
          simp only [idMatches, hte, Bool.not_eq_true', beq_eq_false_iff_ne]
          exact hne
        rw [@List.filter_cons_of_pos _ (fun x : BookmarkTagRow => !(idMatches (.intVal n) x.tag_id)) _ _ h2,
          @List.filter_cons_of_pos _ (fun x : BookmarkTagRow => x.bookmark_id == bid) _ _ h1,
          @List.filter_cons_of_pos _ (fun x : BookmarkTagRow => x.bookmark_id == bid) _ _ h1]
        cases hfd : tags.find? (fun t => t.id == a.tag_id) with
        | none =>
          rw [@List.filterMap_cons_none _ _
              (fun x : BookmarkTagRow =>
                (tags.filter (fun t => !(idMatches (.intVal n) t.id))).find?
                  (fun t => t.id == x.tag_id)) _ _ (hfind.trans hfd),
            @List.filterMap_cons_none _ _
              (fun x : BookmarkTagRow => tags.find? (fun t => t.id == x.tag_id)) _ _ hfd]
          exact ih
        | some tg =>
          have hkeep : (!(tg.id == n)) = true := by
            have htg : tg.id = a.tag_id := by
              have := List.find?_some hfd
              simpa using this
            simp only [htg, Bool.not_eq_true', beq_eq_false_iff_ne]
            exact fun he => hne he.symm
          rw [@List.filterMap_cons_some _ _
              (fun x : BookmarkTagRow =>
                (tags.filter (fun t => !(idMatches (.intVal n) t.id))).find?
                  (fun t => t.id == x.tag_id)) _ _ _ (hfind.trans hfd),
            @List.filterMap_cons_some _ _
              (fun x : BookmarkTagRow => tags.find? (fun t => t.id == x.tag_id)) _ _ _ hfd,
            @List.filter_cons_of_pos _ (fun x : TagRow => !(x.id == n)) _ _ hkeep, ih]
      · -- `a.tag_id = n`: the association row is cascade-deleted, and the
        -- joined tag (when the join finds one) has id `n` and is filtered out
        have heq : n = a.tag_id := by
          have h2' : idMatches (.intVal n) a.tag_id = true := by
            simpa using h2
          simpa [idMatches] using h2'
        rw [@List.filter_cons_of_neg _ (fun x : BookmarkTagRow => !(idMatches (.intVal n) x.tag_id)) _ _ h2,
          @List.filter_cons_of_pos _ (fun x : BookmarkTagRow => x.bookmark_id == bid) _ _ h1]
        cases hfd : tags.find? (fun t => t.id == a.tag_id) with
        | none =>
          rw [@List.filterMap_cons_none _ _
              (fun x : BookmarkTagRow => tags.find? (fun t => t.id == x.tag_id)) _ _ hfd]
          exact ih
        | some tg =>
          have hdrop : ¬ (!(tg.id == n)) = true := by
            have htg : tg.id = a.tag_id := by
              have := List.find?_some hfd
              simpa using this
            rw [htg, ← heq]
            simp
          rw [@List.filterMap_cons_some _ _
              (fun x : BookmarkTagRow => tags.find? (fun t => t.id == x.tag_id)) _ _ _ hfd,
            @List.filter_cons_of_neg _ (fun x : TagRow => !(x.id == n)) _ _ hdrop]
          exact ih
    · by_cases h2 : (!(idMatches (.intVal n) a.tag_id)) = true
      · rw [@List.filter_cons_of_pos _ (fun x : BookmarkTagRow => !(idMatches (.intVal n) x.tag_id)) _ _ h2,
          @List.filter_cons_of_neg _ (fun x : BookmarkTagRow => x.bookmark_id == bid) _ _ h1,
          @List.filter_cons_of_neg _ (fun x : BookmarkTagRow => x.bookmark_id == bid) _ _ h1]
        exact ih
      · rw [@List.filter_cons_of_neg _ (fun x : BookmarkTagRow => !(idMatches (.intVal n) x.tag_id)) _ _ h2,
          @List.filter_cons_of_neg _ (fun x : BookmarkTagRow => x.bookmark_id == bid) _ _ h1]
        exact ih

/-- C10: deleting an existing tag returns its id and leaves every bookmark
row entirely unchanged (in particular `updated_at` is not refreshed); it
removes exactly the tag row and the association rows referencing the tag,
so every bookmark's joined tags view loses exactly that tag and keeps all
its other tags. -/
theorem claim_C10 (st : DB) (n : Int) (h : ∃ tg ∈ st.tags, tg.id = n) :
    (deleteTag st (.intVal n)).1 = .ok n ∧
    (deleteTag st (.intVal n)).2.bookmarks = st.bookmarks ∧
    (∀ t, t ∈ (deleteTag st (.intVal n)).2.tags ↔ t ∈ st.tags ∧ ¬ t.id = n) ∧
    (∀ a, a ∈ (deleteTag st (.intVal n)).2.bookmark_tags ↔
      a ∈ st.bookmark_tags ∧ ¬ a.tag_id = n) ∧
    (∀ bid, bookmarkTagsOf (deleteTag st (.intVal n)).2 bid =
      (bookmarkTagsOf st bid).filter (fun tg => !(tg.id == n))) := by
  have hsome : (st.tags.find? (fun t => idMatches (.intVal n) t.id)).isSome := by
    rw [List.find?_isSome]
    obtain ⟨tg, htg1, htg2⟩ := h
    exact ⟨tg, htg1, by simp [idMatches, htg2]⟩
  obtain ⟨ex, hfind⟩ := Option.isSome_iff_exists.mp hsome
  have hexid : ex.id = n := by
    have := List.find?_some hfind
    simp only [idMatches, beq_iff_eq] at this
    exact this.symm
  unfold deleteTag
  rw [if_neg (by simp), hfind]
  dsimp only
  refine ⟨by rw [hexid], rfl, ?_, ?_, ?_⟩
  · intro t
    rw [List.mem_filter]
    simp only [idMatches, Bool.not_eq_true', beq_eq_false_iff_ne]
    constructor
    · rintro ⟨hm, hne⟩
      exact ⟨hm, fun he => hne he.symm⟩
    · rintro ⟨hm, hne⟩
      exact ⟨hm, fun he => hne he.symm⟩
  · intro a
    rw [List.mem_filter]
    simp only [idMatches, Bool.not_eq_true', beq_eq_false_iff_ne]
    constructor
    · rintro ⟨hm, hne⟩
      exact ⟨hm, fun he => hne he.symm⟩
    · rintro ⟨hm, hne⟩
      exact ⟨hm, fun he => hne he.symm⟩
  · intro bid
    show ((st.bookmark_tags.filter (fun a => !(idMatches (.intVal n) a.tag_id))).filter
        (fun a => a.bookmark_id == bid)).filterMap
      (fun a => (st.tags.filter (fun t => !(idMatches (.intVal n) t.id))).find?
        (fun t => t.id == a.tag_id)) = _
    rw [deleteTagView]
    rfl

/-- State of the C10 witness: a bookmark associated with tags 1 and 2;
deleting tag 1 must keep the bookmark row and its association to tag 2. -/
def c10St : DB :=
  ⟨[⟨1, "A", "u", "", "", "t0", "t0"⟩], [⟨1, "a", "#1"⟩, ⟨2, "b", "#2"⟩],
    [⟨1, 1⟩, ⟨1, 2⟩], 2, 3⟩

/-- Concrete instantiation of `claim_C10` at the C10 witness scenario. -/
theorem claim_C10_witness :
    (deleteTag c10St (.intVal 1)).1 = .ok 1 ∧
    (deleteTag c10St (.intVal 1)).2.bookmarks = c10St.bookmarks ∧
    bookmarkTagsOf (deleteTag c10St (.intVal 1)).2 1 =
      (bookmarkTagsOf c10St 1).filter (fun tg => !(tg.id == 1)) :=
  have hc := claim_C10 c10St 1 ⟨⟨1, "a", "#1"⟩, by decide, rfl⟩
  ⟨hc.1, hc.2.1, hc.2.2.2.2 1⟩

end BookmarkServer
